import Mathlib

/-!
Shallow embedding of `src/src/execution/common.rs` of massa-sc-runtime.

The three ABI entry points `call_module`, `local_call` and `create_sc` are
translated as pure state-passing functions over a `World` consisting of the
Budget Ledger and a trace of collaborator invocations (recorded in order).
External collaborators (the `Interface` trait, `wasmer::Module::new`, and
`crate::execution_impl::exec`) are abstract deterministic oracles with
exactly the argument lists the call sites in common.rs pass them.
-/

namespace Massa

/-- Byte strings (such as bytecode and parameters) are lists of naturals. -/
abbrev Bytes := List Nat

/-- An opaque token for the gas-cost schedule (`env.get_gas_costs()`);
common.rs only passes it through unchanged. -/
abbrev GasCosts := Nat

/-- The structured result of a guest execution (`crate::Response`): returned
payload bytes and the residual gas measured at the moment the export
returned. -/
structure Response where
  ret : Bytes
  remaining_gas : Nat
deriving DecidableEq, Repr

/-- The error taxonomy `ABIError` of common.rs, one constructor per variant;
each carries the formatted message of the wrapped error. -/
inductive ABIError where
  | Error (msg : String)
  | RuntimeError (msg : String)
  | CompileError (msg : String)
  | InstantiationError (msg : String)
  | SerdeError (msg : String)
deriving DecidableEq, Repr

/-- One observable invocation of a collaborator, recorded in the trace. -/
inductive Event where
  | initCall (address : String) (coins : Nat)
  | getPoints
  | compile (bytecode : Bytes)
  | execCall (function : String) (param : Bytes)
  | setPoints (points : Nat)
  | finishCall
  | createModule (bytecode : Bytes)
deriving DecidableEq, Repr

/-- Modelled from the spec: the Budget Ledger accessor of sections 4.4 and 6
(`get_remaining_points` and `set_remaining_points` live in env.rs, which is
not under src/). It stores the remaining points of the execution context
together with a flag recording whether the sandbox engine's internal meter is
in a consistent state; both accessors fail exactly when the meter is
inconsistent, and otherwise read or overwrite the points. -/
structure Ledger where
  points : Nat
  meter_ok : Bool
deriving DecidableEq, Repr

/-- Modelled from the spec: reading the remaining budget, section 4.4. -/
def get_remaining_points (l : Ledger) : Except String Nat :=
  if l.meter_ok then .ok l.points else .error "metering not initialized"

/-- Modelled from the spec: overwriting the remaining budget, section 4.4. -/
def set_remaining_points (l : Ledger) (v : Nat) : Except String Ledger :=
  if l.meter_ok then .ok { l with points := v } else .error "metering not initialized"

/-- The mutable state threaded through a dispatch: the Budget Ledger of the
caller's execution context, plus the ordered trace of collaborator
invocations made so far. -/
structure World where
  ledger : Ledger
  trace : List Event
deriving DecidableEq, Repr

/-- Append one invocation event to the trace. -/
def logEv (w : World) (e : Event) : World :=
  { w with trace := w.trace ++ [e] }

/-- The events a computation taking `w` to `w'` appended to the trace. -/
def newEvents (w w' : World) : List Event :=
  w'.trace.drop w.trace.length

/-- The Host Interface Capability (the `Interface` trait object reachable via
`env.get_interface()`): abstract deterministic oracles, one per method used
by common.rs. Failures are anyhow errors carried as strings; the `?`
conversion wraps them into `ABIError.Error`. -/
structure Interface where
  init_call : String → Nat → Except String Bytes
  finish_call : Except String Unit
  create_module : Bytes → Except String String

/-- The sandbox engine's module loader (`wasmer::Module::new`): an abstract
oracle compiling bytecode bytes into a compiled module (represented by its
bytes); a failure is a `CompileError` message. -/
structure Engine where
  module_new : Bytes → Except String Bytes

/-- The Execution Invoker (`crate::execution_impl::exec`, not under src/):
an abstract oracle over exactly the varying arguments the call sites in
common.rs pass it, namely the compiled module, the function name, the
parameter bytes and the gas-cost schedule. The interface and engine are
fixed ambient collaborators. Note the call sites pass it no budget
argument. -/
abbrev ExecFn := Bytes → String → Bytes → GasCosts → Except ABIError Response

/-- The value `u64::MAX`. -/
def U64_MAX : Nat := 2 ^ 64 - 1

/-- Shallow embedding of `call_module` (common.rs lines 41 to 76). The
conditional compilation on the gas_calibration feature is modelled by the
boolean `gas_calibration`. Returns the `ABIResult` together with the updated
world. -/
def call_module (gas_calibration : Bool) (iface : Interface) (engine : Engine)
    (execFn : ExecFn) (gas_costs : GasCosts) (address function : String)
    (param : Bytes) (raw_coins : Int) (w : World) :
    Except ABIError Response × World :=
  if raw_coins < 0 then
    (.error (.Error "negative amount of coins in Call"), w)
  else
    let coins : Nat := raw_coins.toNat
    let w1 := logEv w (.initCall address coins)
    match iface.init_call address coins with
    | .error msg => (.error (.Error msg), w1)
    | .ok bytecode =>
      let gasStep : Except String Nat :=
        if gas_calibration then .ok U64_MAX else get_remaining_points w1.ledger
      let w2 := if gas_calibration then w1 else logEv w1 .getPoints
      match gasStep with
      | .error msg => (.error (.Error msg), w2)
      | .ok remaining_gas =>
        -- `remaining_gas` is bound but not used below: the call to `exec` in
        -- common.rs lines 63 to 70 does not receive it.
        let w3 := logEv w2 (.compile bytecode)
        match engine.module_new bytecode with
        | .error msg => (.error (.CompileError msg), w3)
        | .ok binary_module =>
          let w4 := logEv w3 (.execCall function param)
          match execFn binary_module function param gas_costs with
          | .error e => (.error e, w4)
          | .ok resp =>
            let w5 :=
              if gas_calibration then w4 else logEv w4 (.setPoints resp.remaining_gas)
            let setStep : Except String Ledger :=
              if gas_calibration then .ok w4.ledger
              else set_remaining_points w4.ledger resp.remaining_gas
            match setStep with
            | .error msg => (.error (.Error msg), w5)
            | .ok l2 =>
              let w6 := logEv { w5 with ledger := l2 } .finishCall
              match iface.finish_call with
              | .error msg => (.error (.Error msg), w6)
              | .ok _ => (.ok resp, w6)

/-- Shallow embedding of `local_call` (common.rs lines 79 to 107): the same
tail as `call_module` but on caller-supplied bytecode, with no `init_call`
and no `finish_call`. -/
def local_call (gas_calibration : Bool) (engine : Engine) (execFn : ExecFn)
    (gas_costs : GasCosts) (bytecode : Bytes) (function : String)
    (param : Bytes) (w : World) : Except ABIError Response × World :=
  let gasStep : Except String Nat :=
    if gas_calibration then .ok U64_MAX else get_remaining_points w.ledger
  let w2 := if gas_calibration then w else logEv w .getPoints
  match gasStep with
  | .error msg => (.error (.Error msg), w2)
  | .ok remaining_gas =>
    -- `remaining_gas` is bound but not used below, as in common.rs.
    let w3 := logEv w2 (.compile bytecode)
    match engine.module_new bytecode with
    | .error msg => (.error (.CompileError msg), w3)
    | .ok binary_module =>
      let w4 := logEv w3 (.execCall function param)
      match execFn binary_module function param gas_costs with
      | .error e => (.error e, w4)
      | .ok resp =>
        let w5 :=
          if gas_calibration then w4 else logEv w4 (.setPoints resp.remaining_gas)
        let setStep : Except String Ledger :=
          if gas_calibration then .ok w4.ledger
          else set_remaining_points w4.ledger resp.remaining_gas
        match setStep with
        | .error msg => (.error (.Error msg), w5)
        | .ok l2 => (.ok resp, { w5 with ledger := l2 })

/-- Shallow embedding of `create_sc` (common.rs lines 110 to 113): pure
delegation to the Host Interface Capability's `create_module`. -/
def create_sc (iface : Interface) (bytecode : Bytes) (w : World) :
    Except ABIError String × World :=
  let w1 := logEv w (.createModule bytecode)
  match iface.create_module bytecode with
  | .error msg => (.error (.Error msg), w1)
  | .ok addr => (.ok addr, w1)

/-- Concrete host interface on which every method succeeds: `init_call`
resolves any address to a fixed bytecode, `create_module` returns a fixed
address. Used to evaluate the dispatch functions at concrete inputs. -/
def testIface : Interface where
  init_call := fun _ _ => .ok [0, 97, 115, 109]
  finish_call := .ok ()
  create_module := fun _ => .ok "A12"

/-- Concrete host interface identical to `testIface` except that the
`finish_call` notification fails. -/
def failFinishIface : Interface where
  init_call := fun _ _ => .ok [0, 97, 115, 109]
  finish_call := .error "finish failed"
  create_module := fun _ => .ok "A12"

/-- Concrete host interface identical to `testIface` except that `init_call`
fails (unknown address). -/
def failInitIface : Interface where
  init_call := fun _ _ => .error "unknown address"
  finish_call := .ok ()
  create_module := fun _ => .ok "A12"

/-- Concrete module loader that compiles every bytecode to itself. -/
def testEngine : Engine where
  module_new := fun b => .ok b

/-- Concrete execution oracle: every run succeeds, returns payload [1, 2]
and reports a residual budget of 7. -/
def testExec : ExecFn := fun _ _ _ _ => .ok ⟨[1, 2], 7⟩

/-- C4: a negative transfer amount makes `call_module` fail immediately with
the request-validation error of the generic runtime-error kind, returning the
world completely unchanged: `init_call` is not invoked, nothing is compiled
or executed, and the Budget Ledger is untouched. -/
theorem claim4_negative_coins_rejected (gas_calibration : Bool)
    (iface : Interface) (engine : Engine) (execFn : ExecFn)
    (gas_costs : GasCosts) (address function : String) (param : Bytes)
    (raw_coins : Int) (w : World) (hneg : raw_coins < 0) :
    call_module gas_calibration iface engine execFn gas_costs address function
        param raw_coins w
      = (.error (.Error "negative amount of coins in Call"), w) := by
  simp [call_module, hneg]

/-- Witness for C4: the scenario at transfer amount -1. -/
theorem claim4_negative_coins_rejected_witness :
    call_module false testIface testEngine testExec 0 "A" "f" [] (-1)
        ⟨⟨100, true⟩, []⟩
      = (.error (.Error "negative amount of coins in Call"),
         ⟨⟨100, true⟩, []⟩) :=
  claim4_negative_coins_rejected false testIface testEngine testExec 0 "A" "f"
    [] (-1) ⟨⟨100, true⟩, []⟩ (by decide)

/-- C8: calling `call_module` twice with the same malformed (negative
amount) input yields the identical error both times; the failure path leaves
the world unchanged, so the second call starting from the first call's
post-state returns exactly the same result and state. -/
theorem claim8_error_path_idempotent (gas_calibration : Bool)
    (iface : Interface) (engine : Engine) (execFn : ExecFn)
    (gas_costs : GasCosts) (address function : String) (param : Bytes)
    (raw_coins : Int) (w : World) (hneg : raw_coins < 0) :
    (call_module gas_calibration iface engine execFn gas_costs address
        function param raw_coins w).1
      = .error (.Error "negative amount of coins in Call") ∧
    call_module gas_calibration iface engine execFn gas_costs address function
        param raw_coins
        (call_module gas_calibration iface engine execFn gas_costs address
          function param raw_coins w).2
      = call_module gas_calibration iface engine execFn gas_costs address
          function param raw_coins w := by
  simp [call_module, hneg]

/-- Witness for C8: the double call at transfer amount -1. -/
theorem claim8_error_path_idempotent_witness :
    (call_module false testIface testEngine testExec 0 "A" "f" [] (-1)
        ⟨⟨100, true⟩, []⟩).1
      = .error (.Error "negative amount of coins in Call") ∧
    call_module false testIface testEngine testExec 0 "A" "f" [] (-1)
        (call_module false testIface testEngine testExec 0 "A" "f" [] (-1)
          ⟨⟨100, true⟩, []⟩).2
      = call_module false testIface testEngine testExec 0 "A" "f" [] (-1)
          ⟨⟨100, true⟩, []⟩ :=
  claim8_error_path_idempotent false testIface testEngine testExec 0 "A" "f"
    [] (-1) ⟨⟨100, true⟩, []⟩ (by decide)

/-- C6: `create_sc` is a pure delegation: its result is exactly what the
Host Interface Capability's `create_module` returns for the bytecode (the
error being wrapped into the generic runtime-error kind), and the world is
unchanged except for recording the single `create_module` invocation — in
particular no compilation, no execution, and no budget change occur. -/
theorem claim6_create_sc_pure_delegation (iface : Interface) (bytecode : Bytes)
    (w : World) :
    create_sc iface bytecode w
      = ((match iface.create_module bytecode with
          | .ok addr => .ok addr
          | .error msg => .error (ABIError.Error msg)),
         { w with trace := w.trace ++ [Event.createModule bytecode] }) := by
  cases h : iface.create_module bytecode <;> simp [create_sc, logEv, h]

/-- C2 (refutation of the grant part): the computed budget is never passed
to the execution. At identical concrete inputs differing only in the
caller's remaining budget (5 versus 1000000 points), `call_module` returns
the bit-identical result; moreover with only 5 points remaining the callee
still runs and reports a residual budget of 7, which then overwrites the
ledger — impossible if the granted amount determined the budget the callee
runs under. -/
theorem claim2_grant_not_passed_to_exec :
    (call_module false testIface testEngine testExec 0 "A" "f" [] 0
        ⟨⟨5, true⟩, []⟩).1
      = (call_module false testIface testEngine testExec 0 "A" "f" [] 0
        ⟨⟨1000000, true⟩, []⟩).1 ∧
    call_module false testIface testEngine testExec 0 "A" "f" [] 0
        ⟨⟨5, true⟩, []⟩
      = (.ok ⟨[1, 2], 7⟩,
         ⟨⟨7, true⟩,
          [.initCall "A" 0, .getPoints, .compile [0, 97, 115, 109],
           .execCall "f" [], .setPoints 7, .finishCall]⟩) :=
  ⟨rfl, rfl⟩

/-- C7: if `init_call` fails, the whole dispatch aborts with that failure
wrapped as the generic runtime error; the only collaborator invocation in
the trace is the `init_call` itself — no compilation, no execution, no
budget read or write, no finish-call notification — and the ledger is
unchanged. -/
theorem claim7_init_call_failure_aborts (gas_calibration : Bool)
    (iface : Interface) (engine : Engine) (execFn : ExecFn)
    (gas_costs : GasCosts) (address function : String) (param : Bytes)
    (raw_coins : Int) (w : World) (msg : String)
    (hpos : 0 ≤ raw_coins)
    (hinit : iface.init_call address raw_coins.toNat = .error msg) :
    call_module gas_calibration iface engine execFn gas_costs address function
        param raw_coins w
      = (.error (.Error msg),
         { w with trace := w.trace ++ [Event.initCall address raw_coins.toNat] }) := by
  simp [call_module, logEv, not_lt.mpr hpos, hinit]

/-- Witness for C7: `init_call` fails with an unknown-address error. -/
theorem claim7_init_call_failure_aborts_witness :
    call_module false failInitIface testEngine testExec 0 "A" "f" [] 3
        ⟨⟨100, true⟩, []⟩
      = (.error (.Error "unknown address"),
         { ledger := ⟨100, true⟩, trace := [Event.initCall "A" 3] }) :=
  claim7_init_call_failure_aborts false failInitIface testEngine testExec 0
    "A" "f" [] 3 ⟨⟨100, true⟩, []⟩ "unknown address" (by decide) rfl

/-- C1: with gas calibration disabled, a successful `call_module` leaves the
caller's remaining budget in the Budget Ledger exactly equal to the residual
budget reported in the callee's execution response; writing the grant as the
caller's pre-call remaining budget and the consumption as grant minus
residual, the post-call budget is exactly grant minus consumption. -/
theorem claim1_budget_reconciliation (iface : Interface) (engine : Engine)
    (execFn : ExecFn) (gas_costs : GasCosts) (address function : String)
    (param : Bytes) (raw_coins : Int) (w : World) (resp : Response)
    (w' : World)
    (h : call_module false iface engine execFn gas_costs address function
          param raw_coins w = (.ok resp, w')) :
    w'.ledger.points = resp.remaining_gas ∧
    (resp.remaining_gas ≤ w.ledger.points →
      w'.ledger.points
        = w.ledger.points - (w.ledger.points - resp.remaining_gas)) := by
  have hmain : w'.ledger.points = resp.remaining_gas := by
    by_cases hneg : raw_coins < 0
    · simp [call_module, hneg] at h
    · rcases hinit : iface.init_call address raw_coins.toNat with msg | bytecode
      · simp [call_module, hneg, hinit] at h
      · cases hmo : w.ledger.meter_ok
        · simp [call_module, hneg, hinit, get_remaining_points, logEv, hmo] at h
        · rcases hcomp : engine.module_new bytecode with msg | bm
          · simp [call_module, hneg, hinit, get_remaining_points, logEv, hmo,
              hcomp] at h
          · rcases hexec : execFn bm function param gas_costs with e | r
            · simp [call_module, hneg, hinit, get_remaining_points, logEv,
                hmo, hcomp, hexec] at h
            · rcases hfin : iface.finish_call with msg | u
              · simp [call_module, hneg, hinit, get_remaining_points,
                  set_remaining_points, logEv, hmo, hcomp, hexec, hfin] at h
              · simp [call_module, hneg, hinit, get_remaining_points,
                  set_remaining_points, logEv, hmo, hcomp, hexec, hfin] at h
                obtain ⟨hr, hw⟩ := h
                subst hr
                rw [← hw]
  refine ⟨hmain, fun hle => ?_⟩
  omega

/-- Witness for C1: a successful concrete call from 100 remaining points,
with the callee reporting a residual budget of 7. -/
theorem claim1_budget_reconciliation_witness :
    (⟨⟨7, true⟩,
      [Event.initCall "A" 0, .getPoints, .compile [0, 97, 115, 109],
       .execCall "f" [], .setPoints 7, .finishCall]⟩ : World).ledger.points
      = (⟨[1, 2], 7⟩ : Response).remaining_gas ∧
    ((⟨[1, 2], 7⟩ : Response).remaining_gas
        ≤ (⟨⟨100, true⟩, ([] : List Event)⟩ : World).ledger.points →
      (⟨⟨7, true⟩,
        [Event.initCall "A" 0, .getPoints, .compile [0, 97, 115, 109],
         .execCall "f" [], .setPoints 7, .finishCall]⟩ : World).ledger.points
        = (⟨⟨100, true⟩, ([] : List Event)⟩ : World).ledger.points
          - ((⟨⟨100, true⟩, ([] : List Event)⟩ : World).ledger.points
            - (⟨[1, 2], 7⟩ : Response).remaining_gas)) :=
  claim1_budget_reconciliation testIface testEngine testExec 0 "A" "f" [] 0
    ⟨⟨100, true⟩, []⟩ ⟨[1, 2], 7⟩ _ rfl

/-- C9: every non-negative transfer amount in the i64 range converts to u64
without change: the conversion succeeds and `init_call` is invoked (as the
first collaborator invocation of the dispatch) with exactly that numeric
value. -/
theorem claim9_nonneg_coins_pass_through (gas_calibration : Bool)
    (iface : Interface) (engine : Engine) (execFn : ExecFn)
    (gas_costs : GasCosts) (address function : String) (param : Bytes)
    (raw_coins : Int) (w : World)
    (h0 : 0 ≤ raw_coins) (h1 : raw_coins ≤ 2 ^ 63 - 1) :
    (raw_coins.toNat : Int) = raw_coins ∧
    (newEvents w
        (call_module gas_calibration iface engine execFn gas_costs address
          function param raw_coins w).2).head?
      = some (.initCall address raw_coins.toNat) := by
  refine ⟨Int.toNat_of_nonneg h0, ?_⟩
  have hneg : ¬ raw_coins < 0 := not_lt.mpr h0
  have key : ∃ rest,
      (call_module gas_calibration iface engine execFn gas_costs address
        function param raw_coins w).2.trace
        = w.trace ++ (Event.initCall address raw_coins.toNat :: rest) := by
    rcases hinit : iface.init_call address raw_coins.toNat with msg | bytecode
    · exact ⟨[], by simp [call_module, hneg, hinit, logEv]⟩
    · cases hgc : gas_calibration
      · cases hmo : w.ledger.meter_ok
        · exact ⟨[.getPoints], by
            simp [call_module, hneg, hinit, get_remaining_points, logEv, hmo]⟩
        · rcases hcomp : engine.module_new bytecode with msg | bm
          · exact ⟨[.getPoints, .compile bytecode], by
              simp [call_module, hneg, hinit, get_remaining_points, logEv,
                hmo, hcomp]⟩
          · rcases hexec : execFn bm function param gas_costs with e | r
            · exact ⟨[.getPoints, .compile bytecode, .execCall function param],
                by simp [call_module, hneg, hinit, get_remaining_points,
                  logEv, hmo, hcomp, hexec]⟩
            · exact ⟨[.getPoints, .compile bytecode, .execCall function param,
                  .setPoints r.remaining_gas, .finishCall], by
                cases hfin : iface.finish_call <;>
                  simp [call_module, hneg, hinit, get_remaining_points,
                    set_remaining_points, logEv, hmo, hcomp, hexec, hfin]⟩
      · rcases hcomp : engine.module_new bytecode with msg | bm
        · exact ⟨[.compile bytecode], by
            simp [call_module, hneg, hinit, logEv, hcomp]⟩
        · rcases hexec : execFn bm function param gas_costs with e | r
          · exact ⟨[.compile bytecode, .execCall function param], by
              simp [call_module, hneg, hinit, logEv, hcomp, hexec]⟩
          · exact ⟨[.compile bytecode, .execCall function param, .finishCall],
              by cases hfin : iface.finish_call <;>
                simp [call_module, hneg, hinit, logEv, hcomp, hexec, hfin]⟩
  obtain ⟨rest, hrest⟩ := key
  simp [newEvents, hrest, List.drop_left]

/-- Witness for C9: the largest i64 value passes through unchanged. -/
theorem claim9_nonneg_coins_pass_through_witness :
    ((9223372036854775807 : Int).toNat : Int) = 9223372036854775807 ∧
    (newEvents ⟨⟨100, true⟩, []⟩
        (call_module false testIface testEngine testExec 0 "A" "f" []
          9223372036854775807 ⟨⟨100, true⟩, []⟩).2).head?
      = some (.initCall "A" (9223372036854775807 : Int).toNat) :=
  claim9_nonneg_coins_pass_through false testIface testEngine testExec 0 "A"
    "f" [] 9223372036854775807 ⟨⟨100, true⟩, []⟩ (by decide) (by decide)

/-- C5: `local_call` never sends the finish-call notification and never
performs address resolution or value transfer (no `init_call` invocation),
on any input and on both success and failure paths: neither event ever
appears among the events it appends to the trace. -/
theorem claim5_local_call_no_finish_no_init (gas_calibration : Bool)
    (engine : Engine) (execFn : ExecFn) (gas_costs : GasCosts)
    (bytecode : Bytes) (function : String) (param : Bytes) (w : World) :
    Event.finishCall ∉ newEvents w
        (local_call gas_calibration engine execFn gas_costs bytecode function
          param w).2 ∧
    ∀ a c, Event.initCall a c ∉ newEvents w
        (local_call gas_calibration engine execFn gas_costs bytecode function
          param w).2 := by
  have key : ∃ evs,
      (local_call gas_calibration engine execFn gas_costs bytecode function
        param w).2.trace = w.trace ++ evs ∧
      Event.finishCall ∉ evs ∧ ∀ a c, Event.initCall a c ∉ evs := by
    cases gas_calibration
    · cases hmo : w.ledger.meter_ok
      · exact ⟨[.getPoints],
          by simp [local_call, get_remaining_points, logEv, hmo],
          by simp, by simp⟩
      · rcases hcomp : engine.module_new bytecode with msg | bm
        · exact ⟨[.getPoints, .compile bytecode],
            by simp [local_call, get_remaining_points, logEv, hmo, hcomp],
            by simp, by simp⟩
        · rcases hexec : execFn bm function param gas_costs with e | r
          · exact ⟨[.getPoints, .compile bytecode, .execCall function param],
              by simp [local_call, get_remaining_points, logEv, hmo, hcomp,
                hexec],
              by simp, by simp⟩
          · exact ⟨[.getPoints, .compile bytecode, .execCall function param,
                .setPoints r.remaining_gas],
              by simp [local_call, get_remaining_points, set_remaining_points,
                logEv, hmo, hcomp, hexec],
              by simp, by simp⟩
    · rcases hcomp : engine.module_new bytecode with msg | bm
      · exact ⟨[.compile bytecode], by simp [local_call, logEv, hcomp],
          by simp, by simp⟩
      · rcases hexec : execFn bm function param gas_costs with e | r
        · exact ⟨[.compile bytecode, .execCall function param],
            by simp [local_call, logEv, hcomp, hexec], by simp, by simp⟩
        · exact ⟨[.compile bytecode, .execCall function param],
            by simp [local_call, logEv, hcomp, hexec], by simp, by simp⟩
  obtain ⟨evs, hevs, hfin, hini⟩ := key
  have hne : newEvents w
      (local_call gas_calibration engine execFn gas_costs bytecode function
        param w).2 = evs := by
    simp [newEvents, hevs, List.drop_left]
  rw [hne]
  exact ⟨hfin, hini⟩

/-- Witness for C5: a concrete local call appends neither a finish-call
notification nor any init-call invocation to the trace. -/
theorem claim5_local_call_no_finish_no_init_witness :
    Event.finishCall ∉ newEvents ⟨⟨100, true⟩, []⟩
        (local_call false testEngine testExec 0 [7] "f" []
          ⟨⟨100, true⟩, []⟩).2 ∧
    Event.initCall "A" 3 ∉ newEvents ⟨⟨100, true⟩, []⟩
        (local_call false testEngine testExec 0 [7] "f" []
          ⟨⟨100, true⟩, []⟩).2 :=
  ⟨(claim5_local_call_no_finish_no_init false testEngine testExec 0 [7] "f"
      [] ⟨⟨100, true⟩, []⟩).1,
   (claim5_local_call_no_finish_no_init false testEngine testExec 0 [7] "f"
      [] ⟨⟨100, true⟩, []⟩).2 "A" 3⟩

/-- Counterexample to C3 as stated: with gas calibration disabled, when the
callee executes successfully but the subsequent `finish_call` notification
fails, `call_module` returns an error even though the budget write-back has
already been committed — the Budget Ledger does not reflect its pre-call
value (7 instead of 100) although an error was raised. -/
theorem claim3_counterexample_finish_fail_after_writeback :
    (call_module false failFinishIface testEngine testExec 0 "A" "f" [] 0
        ⟨⟨100, true⟩, []⟩).1
      = .error (.Error "finish failed") ∧
    (call_module false failFinishIface testEngine testExec 0 "A" "f" [] 0
        ⟨⟨100, true⟩, []⟩).2.ledger.points = 7 ∧
    (100 : Nat) ≠ 7 :=
  ⟨rfl, rfl, by decide⟩

/-- C3 amended: any error in `local_call` leaves the Budget Ledger at its
pre-call value, and any error in `call_module` either leaves it at its
pre-call value or — only with calibration off, after a successful execution
whose reconciliation write-back was already committed and logged — carries
exactly that logged residual value into a subsequent finish-call failure. -/
theorem claim3_amended_no_partial_budget_write (gas_calibration : Bool)
    (iface : Interface) (engine : Engine) (execFn : ExecFn)
    (gas_costs : GasCosts) (address function : String)
    (param bytecode : Bytes) (raw_coins : Int) (w : World) :
    (∀ e w', local_call gas_calibration engine execFn gas_costs bytecode
        function param w = (.error e, w') → w'.ledger = w.ledger) ∧
    (∀ e w', call_module gas_calibration iface engine execFn gas_costs
        address function param raw_coins w = (.error e, w') →
      w'.ledger = w.ledger ∨
      (gas_calibration = false ∧
        Event.setPoints w'.ledger.points ∈ newEvents w w' ∧
        Event.finishCall ∈ newEvents w w' ∧
        w'.ledger = { w.ledger with points := w'.ledger.points })) := by
  constructor
  · intro e w' h
    cases gas_calibration
    · cases hmo : w.ledger.meter_ok
      · simp [local_call, get_remaining_points, logEv, hmo] at h
        obtain ⟨he, hw⟩ := h
        subst hw
        rfl
      · rcases hcomp : engine.module_new bytecode with msg | bm
        · simp [local_call, get_remaining_points, logEv, hmo, hcomp] at h
          obtain ⟨he, hw⟩ := h
          subst hw
          rfl
        · rcases hexec : execFn bm function param gas_costs with e2 | r
          · simp [local_call, get_remaining_points, logEv, hmo, hcomp,
              hexec] at h
            obtain ⟨he, hw⟩ := h
            subst hw
            rfl
          · simp [local_call, get_remaining_points, set_remaining_points,
              logEv, hmo, hcomp, hexec] at h
    · rcases hcomp : engine.module_new bytecode with msg | bm
      · simp [local_call, logEv, hcomp] at h
        obtain ⟨he, hw⟩ := h
        subst hw
        rfl
      · rcases hexec : execFn bm function param gas_costs with e2 | r
        · simp [local_call, logEv, hcomp, hexec] at h
          obtain ⟨he, hw⟩ := h
          subst hw
          rfl
        · simp [local_call, logEv, hcomp, hexec] at h
  · intro e w' h
    by_cases hneg : raw_coins < 0
    · left
      simp [call_module, hneg] at h
      obtain ⟨he, hw⟩ := h
      subst hw
      rfl
    · rcases hinit : iface.init_call address raw_coins.toNat with msg | bc
      · left
        simp [call_module, hneg, hinit, logEv] at h
        obtain ⟨he, hw⟩ := h
        subst hw
        rfl
      · cases gas_calibration
        · cases hmo : w.ledger.meter_ok
          · left
            simp [call_module, hneg, hinit, get_remaining_points, logEv,
              hmo] at h
            obtain ⟨he, hw⟩ := h
            subst hw
            rfl
          · rcases hcomp : engine.module_new bc with msg | bm
            · left
              simp [call_module, hneg, hinit, get_remaining_points, logEv,
                hmo, hcomp] at h
              obtain ⟨he, hw⟩ := h
              subst hw
              rfl
            · rcases hexec : execFn bm function param gas_costs with e2 | r
              · left
                simp [call_module, hneg, hinit, get_remaining_points, logEv,
                  hmo, hcomp, hexec] at h
                obtain ⟨he, hw⟩ := h
                subst hw
                rfl
              · rcases hfin : iface.finish_call with msg | u
                · right
                  simp [call_module, hneg, hinit, get_remaining_points,
                    set_remaining_points, logEv, hmo, hcomp, hexec, hfin] at h
                  obtain ⟨he, hw⟩ := h
                  subst hw
                  refine ⟨rfl, ?_, ?_, ?_⟩
                  · simp [newEvents, List.drop_left]
                  · simp [newEvents, List.drop_left]
                  · simp [hmo]
                · simp [call_module, hneg, hinit, get_remaining_points,
                    set_remaining_points, logEv, hmo, hcomp, hexec, hfin] at h
        · rcases hcomp : engine.module_new bc with msg | bm
          · left
            simp [call_module, hneg, hinit, logEv, hcomp] at h
            obtain ⟨he, hw⟩ := h
            subst hw
            rfl
          · rcases hexec : execFn bm function param gas_costs with e2 | r
            · left
              simp [call_module, hneg, hinit, logEv, hcomp, hexec] at h
              obtain ⟨he, hw⟩ := h
              subst hw
              rfl
            · rcases hfin : iface.finish_call with msg | u
              · left
                simp [call_module, hneg, hinit, logEv, hcomp, hexec, hfin] at h
                obtain ⟨he, hw⟩ := h
                subst hw
                rfl
              · simp [call_module, hneg, hinit, logEv, hcomp, hexec, hfin] at h

/-- Witness for the amended C3: a failed budget read leaves the ledger
unchanged, and a finish-call failure after a successful execution carries
exactly the logged reconciliation value. -/
theorem claim3_amended_no_partial_budget_write_witness :
    (⟨⟨100, false⟩, [Event.getPoints]⟩ : World).ledger = Ledger.mk 100 false ∧
    ((⟨7, true⟩ : Ledger) = ⟨100, true⟩ ∨
      (false = false ∧
        Event.setPoints 7 ∈ [Event.initCall "A" 0, .getPoints,
          .compile [0, 97, 115, 109], .execCall "f" [], .setPoints 7,
          .finishCall] ∧
        Event.finishCall ∈ [Event.initCall "A" 0, .getPoints,
          .compile [0, 97, 115, 109], .execCall "f" [], .setPoints 7,
          .finishCall] ∧
        (⟨7, true⟩ : Ledger) = ⟨7, true⟩)) :=
  ⟨(claim3_amended_no_partial_budget_write false testIface testEngine testExec
      0 "A" "f" [] [7] 0 ⟨⟨100, false⟩, []⟩).1
      (.Error "metering not initialized") ⟨⟨100, false⟩, [Event.getPoints]⟩
      rfl,
   (claim3_amended_no_partial_budget_write false failFinishIface testEngine
      testExec 0 "A" "f" [] [7] 0 ⟨⟨100, true⟩, []⟩).2 (.Error "finish failed")
      ⟨⟨7, true⟩,
       [Event.initCall "A" 0, .getPoints, .compile [0, 97, 115, 109],
        .execCall "f" [], .setPoints 7, .finishCall]⟩ rfl⟩

/-- C10: the finish-call notification is the last collaborator invocation of
every successful `call_module`, in either calibration mode; and when every
step up to the execution succeeds (calibration off) but `finish_call` itself
fails, `call_module` returns that failure as the generic runtime error even
though the budget write-back has already been committed and logged before
the finish-call attempt. -/
theorem claim10_finish_call_after_writeback (iface : Interface)
    (engine : Engine) (execFn : ExecFn) (gas_costs : GasCosts)
    (address function : String) (param : Bytes) (raw_coins : Int) (w : World)
    (bc bm : Bytes) (resp : Response) (msg : String) :
    (∀ gc r w', call_module gc iface engine execFn gas_costs address function
        param raw_coins w = (.ok r, w') →
      (newEvents w w').getLast? = some Event.finishCall) ∧
    (0 ≤ raw_coins →
      iface.init_call address raw_coins.toNat = .ok bc →
      w.ledger.meter_ok = true →
      engine.module_new bc = .ok bm →
      execFn bm function param gas_costs = .ok resp →
      iface.finish_call = .error msg →
      call_module false iface engine execFn gas_costs address function param
          raw_coins w
        = (.error (.Error msg),
           ⟨⟨resp.remaining_gas, true⟩,
            w.trace ++ [.initCall address raw_coins.toNat, .getPoints,
              .compile bc, .execCall function param,
              .setPoints resp.remaining_gas, .finishCall]⟩)) := by
  constructor
  · intro gc r w' h
    by_cases hneg : raw_coins < 0
    · simp [call_module, hneg] at h
    · rcases hinit : iface.init_call address raw_coins.toNat with m2 | bc2
      · simp [call_module, hneg, hinit] at h
      · cases gc
        · cases hmo : w.ledger.meter_ok
          · simp [call_module, hneg, hinit, get_remaining_points, logEv,
              hmo] at h
          · rcases hcomp : engine.module_new bc2 with m2 | bm2
            · simp [call_module, hneg, hinit, get_remaining_points, logEv,
                hmo, hcomp] at h
            · rcases hexec : execFn bm2 function param gas_costs with e2 | r2
              · simp [call_module, hneg, hinit, get_remaining_points, logEv,
                  hmo, hcomp, hexec] at h
              · rcases hfin : iface.finish_call with m2 | u
                · simp [call_module, hneg, hinit, get_remaining_points,
                    set_remaining_points, logEv, hmo, hcomp, hexec, hfin] at h
                · simp [call_module, hneg, hinit, get_remaining_points,
                    set_remaining_points, logEv, hmo, hcomp, hexec, hfin] at h
                  obtain ⟨hr, hw⟩ := h
                  subst hw
                  simp [newEvents, List.drop_left]
        · rcases hcomp : engine.module_new bc2 with m2 | bm2
          · simp [call_module, hneg, hinit, logEv, hcomp] at h
          · rcases hexec : execFn bm2 function param gas_costs with e2 | r2
            · simp [call_module, hneg, hinit, logEv, hcomp, hexec] at h
            · rcases hfin : iface.finish_call with m2 | u
              · simp [call_module, hneg, hinit, logEv, hcomp, hexec, hfin] at h
              · simp [call_module, hneg, hinit, logEv, hcomp, hexec, hfin] at h
                obtain ⟨hr, hw⟩ := h
                subst hw
                simp [newEvents, List.drop_left]
  · intro h0 hinit hmo hcomp hexec hfin
    simp [call_module, not_lt.mpr h0, hinit, get_remaining_points,
      set_remaining_points, logEv, hmo, hcomp, hexec, hfin]

/-- Witness for C10: a successful concrete call ends in the finish-call
notification, and a concrete finish-call failure surfaces after the
committed write-back. -/
theorem claim10_finish_call_after_writeback_witness :
    (newEvents ⟨⟨100, true⟩, []⟩
        (⟨⟨7, true⟩,
          [Event.initCall "A" 0, .getPoints, .compile [0, 97, 115, 109],
           .execCall "f" [], .setPoints 7, .finishCall]⟩ : World)).getLast?
      = some Event.finishCall ∧
    call_module false failFinishIface testEngine testExec 0 "A" "f" [] 0
        ⟨⟨100, true⟩, []⟩
      = (.error (.Error "finish failed"),
         ⟨⟨7, true⟩,
          [Event.initCall "A" 0, .getPoints, .compile [0, 97, 115, 109],
           .execCall "f" [], .setPoints 7, .finishCall]⟩) :=
  ⟨(claim10_finish_call_after_writeback testIface testEngine testExec 0 "A"
      "f" [] 0 ⟨⟨100, true⟩, []⟩ [0, 97, 115, 109] [0, 97, 115, 109]
      ⟨[1, 2], 7⟩ "x").1 false ⟨[1, 2], 7⟩
      ⟨⟨7, true⟩,
       [Event.initCall "A" 0, .getPoints, .compile [0, 97, 115, 109],
        .execCall "f" [], .setPoints 7, .finishCall]⟩ rfl,
   (claim10_finish_call_after_writeback failFinishIface testEngine testExec 0
      "A" "f" [] 0 ⟨⟨100, true⟩, []⟩ [0, 97, 115, 109] [0, 97, 115, 109]
      ⟨[1, 2], 7⟩ "finish failed").2 (by decide) rfl rfl rfl rfl rfl⟩

end Massa
